import Mathlib

/-!
Shallow embedding of the upr-os-worker job dispatch and tracking engine
(src/processor.js, class JobProcessor) in Lean 4.

Modelling conventions:
- JSON-like JavaScript values (payloads, downstream responses, handler
  results) are modelled by the inductive type JVal.  A JS object field that
  is undefined is modelled by omitting the field (JS JSON serialization
  drops undefined fields); JS null is JVal.null.
- The module-global Map jobHistory is modelled as an insertion-ordered
  association list (Store).  JS Map.set on an existing key updates the
  value in place without moving the key in insertion order; on a new key it
  appends.  Map.keys().next().value is the first key in insertion order.
- Timestamps are integers (milliseconds).  Date.now() and
  new Date().toISOString() taken at the same program point are modelled by
  the same integer instant; toISOString is strictly monotone in the
  instant, so order comparisons on the stored values are faithful.
  process takes the instant t0 at job start and t1 at the terminal
  transition.  Wall clocks are not guaranteed monotone, so t0 <= t1 is a
  hypothesis where a claim needs it, not a built-in fact.
- Downstream axios calls, Date.now inside handlers and Math.random are
  an environment Env: ds maps (url, request body) to the response data
  (.ok data) or a failure message (.error message, the error.message of
  the thrown error); now is the handler-local clock; rand an arbitrary
  stream of natural draws standing for the Math.random based generators
  (the spec treats those generators as placeholder stubs).
- Handlers return, besides their result, the list of downstream calls they
  issued, so that claims about making no downstream call are statable.
- new Date(undefined) in the getRecentJobs comparator is NaN in JS, making
  the relative order of records without startedAt unspecified; dateNum
  maps the absent case to 0 and theorems about ordering are stated under
  the hypothesis that every record has a startedAt.
-/

/-- JSON-like JavaScript value. -/
inductive JVal where
  | null : JVal
  | bool : Bool → JVal
  | num : Int → JVal
  | str : String → JVal
  | arr : List JVal → JVal
  | obj : List (String × JVal) → JVal

/-- Field access on a JS object (undefined, i.e. none, on non-objects and
absent keys). -/
def JVal.getField : JVal → String → Option JVal
  | .obj fs, k => (fs.find? (fun p => p.1 == k)).map Prod.snd
  | _, _ => none

/-- Build a JS object literal where fields whose value is undefined are
omitted. -/
def mkBody (fields : List (String × Option JVal)) : JVal :=
  .obj (fields.filterMap (fun p => p.2.map (fun v => (p.1, v))))

/-- One record of the job history (the value stored in jobHistory).
Fields not assigned by the JS object literal that created the record are
undefined, i.e. none.  The error field is the error message string. -/
structure JobRecord where
  id : String
  type : String
  status : String
  startedAt : Option Int
  completedAt : Option Int
  failedAt : Option Int
  duration : Option Int
  result : Option JVal
  error : Option String
  payload : Option JVal

/-- The jobHistory Map: insertion-ordered association list from job id to
record.  Head is the oldest (first-inserted) entry. -/
abbrev Store := List (String × JobRecord)

/-- Keys of the store in insertion order. -/
def keys (s : Store) : List String := s.map Prod.fst

/-- JS Map.set: update in place if the key is present (position in
insertion order is kept), otherwise append. -/
def mapSet (s : Store) (k : String) (v : JobRecord) : Store :=
  if s.any (fun p => p.1 == k) then
    s.map (fun p => if p.1 == k then (k, v) else p)
  else
    s ++ [(k, v)]

/-- JS Map.get: value of the entry with the given key, or undefined. -/
def mapGet (s : Store) (k : String) : Option JobRecord :=
  (s.find? (fun p => p.1 == k)).map Prod.snd

/-- JS Map.delete: remove the entry with the given key. -/
def mapDelete (s : Store) (k : String) : Store :=
  s.filter (fun p => !(p.1 == k))

def MAX_HISTORY : Nat := 100

/-- JobProcessor.recordJob: set the entry, then, if the size exceeds
MAX_HISTORY, delete the entry of the first key in insertion order
(jobHistory.keys().next().value). -/
def recordJob (s : Store) (jobId : String) (data : JobRecord) : Store :=
  let s1 := mapSet s jobId data
  if s1.length > MAX_HISTORY then
    match s1 with
    | [] => s1
    | (k0, _) :: _ => mapDelete s1 k0
  else s1

/-- JobProcessor.getStatus: the record, or a thrown Error with message
Job not found (modelled as Except.error). -/
def getStatus (s : Store) (jobId : String) : Except String JobRecord :=
  match mapGet s jobId with
  | none => .error "Job not found"
  | some j => .ok j

/-- Numeric value of new Date(x) for a stored instant; undefined gives NaN
in JS (unspecified ordering), modelled as 0 and excluded by hypothesis in
ordering claims. -/
def dateNum : Option Int → Int
  | some t => t
  | none => 0

/-- Comparator of getRecentJobs as a relation: a may come before b exactly
when the JS comparator (a, b) => new Date(b.startedAt) - new Date(a.startedAt)
is <= 0, i.e. b's instant <= a's instant (descending). -/
def startedAtGE (a b : JobRecord) : Prop :=
  dateNum b.startedAt ≤ dateNum a.startedAt

instance : DecidableRel startedAtGE :=
  fun _ _ => Int.decLe _ _

/-- JobProcessor.getRecentJobs: values of the history, stable-sorted by the
startedAt-descending comparator, first limit of them.  JS Array.prototype.sort
is required to be stable; on a consistent comparator any sorting algorithm
realizing it agrees up to the order of ties, which the spec leaves
unspecified, so insertion sort is used as the model. -/
def getRecentJobs (s : Store) (limit : Nat) : List JobRecord :=
  (List.insertionSort startedAtGE (s.map Prod.snd)).take limit

/-- OS_BASE_URL with its default value (process.env override is deployment
configuration, not behavior). -/
def OS_BASE_URL : String := "https://upr-os-service-191599223867.us-central1.run.app"

/-- One downstream call: url and request body. -/
abbrev Call := String × JVal

/-- Environment of a handler execution: downstream service oracle, the
handler-local clock, and the Math.random draws. -/
structure Env where
  ds : String → JVal → Except String JVal
  now : Int
  rand : Nat → Nat

/-- A handler: payload and jobId to (result or thrown-error message, list
of downstream calls issued). -/
abbrev Handler := JVal → String → Env → Except String JVal × List Call

/-- Truthiness of the optional leadIds value followed by iteration, i.e.
for (const leadId of (leadIds or [])): a falsy value iterates nothing, an
array iterates its elements, a non-empty string iterates its characters,
and any other truthy value throws a TypeError (not iterable). -/
def forOfTargets : Option JVal → Except String (List JVal)
  | none => .ok []
  | some .null => .ok []
  | some (.bool b) =>
      if b then .error "object is not iterable" else .ok []
  | some (.num n) =>
      if n = 0 then .ok [] else .error "object is not iterable"
  | some (.str s) =>
      .ok (s.toList.map (fun c => .str (String.mk [c])))
  | some (.arr xs) => .ok xs
  | some (.obj _) => .error "object is not iterable"

def enrichUrl : String := OS_BASE_URL ++ "/api/os/enrich"
def scoreUrl : String := OS_BASE_URL ++ "/api/os/score"
def pipelineUrl : String := OS_BASE_URL ++ "/api/os/pipeline"
def discoveryUrl : String := OS_BASE_URL ++ "/api/os/discovery"

/-- Request body of one enrichment.batch item. -/
def enrichBatchBody (payload : JVal) (leadId : JVal) : JVal :=
  mkBody [("leadId", some leadId),
          ("tenantId", payload.getField "tenantId"),
          ("source", some (.str "worker-batch"))]

/-- Per-item body of the enrichment.batch loop: the downstream call is
wrapped in try/catch, a success pushes an enriched entry, a failure pushes
a failed entry carrying error.message. -/
def enrichItemResult (payload : JVal) (env : Env) (leadId : JVal) : JVal :=
  match env.ds enrichUrl (enrichBatchBody payload leadId) with
  | .ok data => .obj [("leadId", leadId), ("status", .str "enriched"), ("data", data)]
  | .error e => .obj [("leadId", leadId), ("status", .str "failed"), ("error", .str e)]

/-- JobProcessor.handleEnrichmentBatch. -/
def handleEnrichmentBatch : Handler := fun payload _jobId env =>
  match forOfTargets (payload.getField "leadIds") with
  | .error e => (.error e, [])
  | .ok leads =>
      let results := leads.map (enrichItemResult payload env)
      (.ok (.obj [("processed", .num results.length), ("results", .arr results)]),
       leads.map (fun leadId => (enrichUrl, enrichBatchBody payload leadId)))

/-- Request body of enrichment.single. -/
def enrichSingleBody (payload : JVal) : JVal :=
  mkBody [("leadId", payload.getField "leadId"),
          ("tenantId", payload.getField "tenantId"),
          ("source", some (.str "worker-single"))]

/-- JobProcessor.handleEnrichmentSingle: one downstream call whose failure
propagates. -/
def handleEnrichmentSingle : Handler := fun payload _jobId env =>
  let body := enrichSingleBody payload
  match env.ds enrichUrl body with
  | .ok data => (.ok data, [(enrichUrl, body)])
  | .error e => (.error e, [(enrichUrl, body)])

/-- JobProcessor.handleSignalAggregation: synthesizes a summary, no
downstream call. -/
def handleSignalAggregation : Handler := fun payload _jobId env =>
  (.ok (mkBody
    [("tenantId", payload.getField "tenantId"),
     ("aggregatedAt", some (.num env.now)),
     ("signalsProcessed", some (.num ((env.rand 0 % 1000 : Nat) + 100))),
     ("categories", some (.arr [.str "hiring", .str "funding", .str "expansion", .str "leadership"]))]),
   [])

/-- Request body of pipeline.scheduled. -/
def pipelineBody (payload : JVal) : JVal :=
  mkBody [("pipelineId", payload.getField "pipelineId"),
          ("tenantId", payload.getField "tenantId"),
          ("config", payload.getField "config"),
          ("source", some (.str "scheduled-worker"))]

/-- JobProcessor.handleScheduledPipeline: one downstream call whose failure
propagates. -/
def handleScheduledPipeline : Handler := fun payload _jobId env =>
  let body := pipelineBody payload
  match env.ds pipelineUrl body with
  | .ok data => (.ok data, [(pipelineUrl, body)])
  | .error e => (.error e, [(pipelineUrl, body)])

/-- Request body of one scoring.batch item. -/
def scoreBatchBody (payload : JVal) (leadId : JVal) : JVal :=
  mkBody [("leadId", some leadId),
          ("tenantId", payload.getField "tenantId"),
          ("vertical", payload.getField "vertical"),
          ("source", some (.str "worker-batch"))]

/-- Per-item body of the scoring.batch loop (response.data?.score is the
score field of the response data, undefined if absent). -/
def scoreItemResult (payload : JVal) (env : Env) (leadId : JVal) : JVal :=
  match env.ds scoreUrl (scoreBatchBody payload leadId) with
  | .ok data => mkBody [("leadId", some leadId), ("status", some (.str "scored")),
                        ("score", data.getField "score")]
  | .error e => .obj [("leadId", leadId), ("status", .str "failed"), ("error", .str e)]

/-- JobProcessor.handleScoringBatch. -/
def handleScoringBatch : Handler := fun payload _jobId env =>
  match forOfTargets (payload.getField "leadIds") with
  | .error e => (.error e, [])
  | .ok leads =>
      let results := leads.map (scoreItemResult payload env)
      (.ok (.obj [("processed", .num results.length), ("results", .arr results)]),
       leads.map (fun leadId => (scoreUrl, scoreBatchBody payload leadId)))

/-- Length of recipients?.length or 0: arrays and strings have a length,
anything else gives undefined hence 0. -/
def jsLengthOrZero : Option JVal → Nat
  | some (.arr xs) => xs.length
  | some (.str s) => s.length
  | _ => 0

/-- JobProcessor.handleOutreachCampaign: synthesizes a queued-campaign
summary, no downstream call. -/
def handleOutreachCampaign : Handler := fun payload _jobId env =>
  (.ok (mkBody
    [("campaignId", payload.getField "campaignId"),
     ("recipientsProcessed", some (.num (jsLengthOrZero (payload.getField "recipients")))),
     ("status", some (.str "queued")),
     ("estimatedDelivery", some (.num (env.now + 3600000)))]),
   [])

/-- Request body of discovery.background. -/
def discoveryBody (payload : JVal) : JVal :=
  mkBody [("query", payload.getField "query"),
          ("tenantId", payload.getField "tenantId"),
          ("sources", payload.getField "sources"),
          ("background", some (.bool true))]

/-- JobProcessor.handleBackgroundDiscovery: one downstream call whose
failure propagates. -/
def handleBackgroundDiscovery : Handler := fun payload _jobId env =>
  let body := discoveryBody payload
  match env.ds discoveryUrl body with
  | .ok data => (.ok data, [(discoveryUrl, body)])
  | .error e => (.error e, [(discoveryUrl, body)])

/-- JobProcessor.handleStaleCleanup: synthesizes a cleanup summary, no
downstream call (the storageReclaimed string is a Math.random based
placeholder, modelled as an opaque draw rendered to a string). -/
def handleStaleCleanup : Handler := fun _payload _jobId env =>
  (.ok (.obj
    [("cleanedAt", .num env.now),
     ("recordsRemoved", .num ((env.rand 0 % 50 : Nat))),
     ("storageReclaimed", .str (toString (env.rand 1) ++ "MB"))]),
   [])

/-- JobProcessor.handleExportGeneration: synthesizes an export-started
summary, no downstream call. -/
def handleExportGeneration : Handler := fun payload _jobId env =>
  (.ok (mkBody
    [("exportId", some (.str ("export_" ++ toString env.now))),
     ("type", payload.getField "exportType"),
     ("status", some (.str "generating")),
     ("estimatedRows", some (.num ((env.rand 0 % 10000 : Nat) + 100))),
     ("downloadUrl", some .null)]),
   [])

/-- JobProcessor.handleAnalyticsAggregation: synthesizes a metrics summary,
no downstream call. -/
def handleAnalyticsAggregation : Handler := fun payload _jobId env =>
  (.ok (mkBody
    [("period", payload.getField "period"),
     ("aggregatedAt", some (.num env.now)),
     ("metrics", some (.obj
       [("leadsDiscovered", .num ((env.rand 0 % 500 : Nat) + 50)),
        ("leadsEnriched", .num ((env.rand 1 % 400 : Nat) + 40)),
        ("leadsScored", .num ((env.rand 2 % 300 : Nat) + 30)),
        ("outreachSent", .num ((env.rand 3 % 200 : Nat) + 20))]))]),
   [])

/-- The handler table built in the JobProcessor constructor: ten job types. -/
def handlers (t : String) : Option Handler :=
  if t = "enrichment.batch" then some handleEnrichmentBatch
  else if t = "enrichment.single" then some handleEnrichmentSingle
  else if t = "signals.aggregate" then some handleSignalAggregation
  else if t = "pipeline.scheduled" then some handleScheduledPipeline
  else if t = "scoring.batch" then some handleScoringBatch
  else if t = "outreach.campaign" then some handleOutreachCampaign
  else if t = "discovery.background" then some handleBackgroundDiscovery
  else if t = "cleanup.stale" then some handleStaleCleanup
  else if t = "export.generate" then some handleExportGeneration
  else if t = "analytics.aggregate" then some handleAnalyticsAggregation
  else none

/-- A job description as consumed by process (source and triggeredAt
metadata are ignored by process). -/
structure Job where
  type : String
  payload : JVal

/-- The value returned by process on success:
return (braces) jobId, status: completed, duration, result (braces). -/
structure ProcResult where
  jobId : String
  status : String
  duration : Int
  result : JVal

/-- The processing record written at job start (step 2 of process). -/
def processingRecord (jobId ty : String) (payload : JVal) (t0 : Int) : JobRecord :=
  { id := jobId, type := ty, status := "processing",
    startedAt := some t0, completedAt := none, failedAt := none,
    duration := none, result := none, error := none, payload := some payload }

/-- The terminal record written by process: on success a completed record,
on failure (handler threw, or unknown job type) a failed record.  In both
cases startedAt is re-read from the store entry for the job id at the time
of the terminal write (jobHistory.get(jobId)?.startedAt), while the
duration uses the closure-captured startTime t0. -/
def terminalRecord (s : Store) (jobId ty : String) (t0 t1 : Int)
    (outcome : Except String JVal) : JobRecord :=
  match outcome with
  | .ok result =>
      { id := jobId, type := ty, status := "completed",
        startedAt := (mapGet s jobId).bind (fun r => r.startedAt),
        completedAt := some t1, failedAt := none,
        duration := some (t1 - t0), result := some result,
        error := none, payload := none }
  | .error e =>
      { id := jobId, type := ty, status := "failed",
        startedAt := (mapGet s jobId).bind (fun r => r.startedAt),
        completedAt := none, failedAt := some t1,
        duration := some (t1 - t0), result := none,
        error := some e, payload := none }

/-- The terminal recordJob call of process, reading startedAt from the
store state s at the time of the write (under concurrent interleavings s
may differ from the state right after the processing write). -/
def writeTerminal (s : Store) (jobId ty : String) (t0 t1 : Int)
    (outcome : Except String JVal) : Store :=
  recordJob s jobId (terminalRecord s jobId ty t0 t1 outcome)

/-- Handler lookup and invocation inside the try block: an absent handler
throws Error(Unknown job type: type), otherwise the handler runs and its
result or thrown error is the outcome. -/
def runHandler (ty : String) (payload : JVal) (jobId : String) (env : Env) :
    Except String JVal :=
  match handlers ty with
  | none => .error ("Unknown job type: " ++ ty)
  | some h => (h payload jobId env).1

/-- JobProcessor.process run to completion without interleaved access to
the history by other in-flight jobs: jobId is the generated identifier, t0
the start instant (startTime and startedAt), t1 the terminal instant.
Returns the final store and the returned value (.ok) or the re-thrown
error message (.error). -/
def process (s : Store) (job : Job) (jobId : String) (t0 t1 : Int) (env : Env) :
    Store × Except String ProcResult :=
  let s1 := recordJob s jobId (processingRecord jobId job.type job.payload t0)
  let outcome := runHandler job.type job.payload jobId env
  let s2 := writeTerminal s1 jobId job.type t0 t1 outcome
  match outcome with
  | .ok result =>
      (s2, .ok { jobId := jobId, status := "completed", duration := t1 - t0, result := result })
  | .error e => (s2, .error e)

instance : IsTotal JobRecord startedAtGE :=
  ⟨fun a b => le_total (dateNum b.startedAt) (dateNum a.startedAt)⟩

instance : IsTrans JobRecord startedAtGE :=
  ⟨fun _ _ _ hab hbc => le_trans hbc hab⟩

/-- A history record carrying only a startedAt instant, used to state the
concrete ordering example. -/
def tRec (i : String) (t : Int) : JobRecord :=
  { id := i, type := "signals.aggregate", status := "processing",
    startedAt := some t, completedAt := none, failedAt := none,
    duration := none, result := none, error := none, payload := none }

/-- Witness fixtures: a downstream oracle that always fails with message
boom, and one that always succeeds with null data. -/
def envFailW : Env := { ds := fun _ _ => .error "boom", now := 0, rand := fun _ => 0 }

def envOkW : Env := { ds := fun _ _ => .ok .null, now := 0, rand := fun _ => 0 }

def jobSingleW : Job :=
  { type := "enrichment.single",
    payload := .obj [("leadId", .str "L1"), ("tenantId", .str "T1")] }

def jobUnknownW : Job := { type := "no.such", payload := .null }

def jobCleanW : Job := { type := "cleanup.stale", payload := .obj [] }

def payloadBatchW : JVal :=
  .obj [("leadIds", .arr [.str "L1", .str "L2"]), ("tenantId", .str "T1")]


/-! Store lemmas: behavior of mapSet, mapGet, mapDelete and recordJob. -/

theorem any_key_iff (s : Store) (k : String) :
    (s.any fun p => p.1 == k) = true ↔ k ∈ keys s := by
  simp [keys, List.any_eq_true, List.mem_map]

theorem mapSet_of_not_mem {s : Store} {k : String} (v : JobRecord)
    (h : k ∉ keys s) : mapSet s k v = s ++ [(k, v)] := by
  unfold mapSet
  rw [if_neg]
  intro hc
  exact h ((any_key_iff s k).mp hc)

theorem mapSet_of_mem {s : Store} {k : String} (v : JobRecord)
    (h : k ∈ keys s) :
    mapSet s k v = s.map (fun p => if p.1 == k then (k, v) else p) := by
  unfold mapSet
  rw [if_pos ((any_key_iff s k).mpr h)]

theorem length_mapSet_of_mem {s : Store} {k : String} (v : JobRecord)
    (h : k ∈ keys s) : (mapSet s k v).length = s.length := by
  rw [mapSet_of_mem v h, List.length_map]

theorem keys_mapSet_of_mem {s : Store} {k : String} (v : JobRecord)
    (h : k ∈ keys s) : keys (mapSet s k v) = keys s := by
  rw [mapSet_of_mem v h]
  unfold keys
  rw [List.map_map]
  apply List.map_congr_left
  intro p _
  by_cases hp : p.1 = k
  · simp [hp]
  · simp [hp]

theorem key_mem_of_entry {s : Store} {p : String × JobRecord} (hp : p ∈ s) :
    p.1 ∈ keys s :=
  List.mem_map_of_mem Prod.fst hp

theorem mapGet_of_not_mem {s : Store} {k : String} (h : k ∉ keys s) :
    mapGet s k = none := by
  have hf : s.find? (fun p => p.1 == k) = none := by
    apply List.find?_eq_none.mpr
    intro p hp
    simp only [beq_iff_eq]
    intro hc
    exact h (hc ▸ key_mem_of_entry hp)
  unfold mapGet
  rw [hf]
  rfl

theorem mapGet_append_last {s : Store} {k : String} (v : JobRecord)
    (h : k ∉ keys s) : mapGet (s ++ [(k, v)]) k = some v := by
  induction s with
  | nil => simp [mapGet]
  | cons p rest ih =>
      have hk : (p.1 == k) = false := by
        apply beq_eq_false_iff_ne.mpr
        intro hc
        exact h (hc ▸ key_mem_of_entry (List.mem_cons_self p rest))
      have hrest : k ∉ keys rest := by
        intro hc
        apply h
        rcases List.mem_map.mp hc with ⟨q, hq, hqk⟩
        exact hqk ▸ key_mem_of_entry (List.mem_cons_of_mem p hq)
      simp only [List.cons_append, mapGet, List.find?, hk]
      exact ih hrest

theorem mapGet_mapSet_self {s : Store} {k : String} (v : JobRecord)
    (h : k ∈ keys s) : mapGet (mapSet s k v) k = some v := by
  rw [mapSet_of_mem v h]
  induction s with
  | nil => simp [keys] at h
  | cons p rest ih =>
      by_cases hp : p.1 = k
      · simp [mapGet, List.find?, hp]
      · have hbe : (p.1 == k) = false := beq_eq_false_iff_ne.mpr hp
        have hrest : k ∈ keys rest := by
          rcases List.mem_map.mp h with ⟨q, hq, hqk⟩
          rcases List.mem_cons.mp hq with hq1 | hq2
          · exact absurd (hq1 ▸ hqk) hp
          · exact hqk ▸ key_mem_of_entry hq2
        simp only [List.map_cons, hbe, Bool.false_eq_true, if_false, mapGet, List.find?]
        exact ih hrest

theorem mapDelete_cons {t : Store} {k0 : String} (v0 : JobRecord)
    (h : k0 ∉ keys t) : mapDelete ((k0, v0) :: t) k0 = t := by
  unfold mapDelete
  rw [List.filter_cons]
  simp only [beq_self_eq_true, Bool.not_true, Bool.false_eq_true, if_false]
  apply List.filter_eq_self.mpr
  intro p hp
  have hne : p.1 ≠ k0 := fun hc => h (hc ▸ key_mem_of_entry hp)
  simp [hne]

theorem keys_cons (p : String × JobRecord) (s : Store) :
    keys (p :: s) = p.1 :: keys s := rfl

theorem keys_append (s t : Store) : keys (s ++ t) = keys s ++ keys t :=
  List.map_append _ _ _

theorem not_mem_keys_tail {s : Store} {k : String} (h : k ∉ keys s) :
    k ∉ keys s.tail := by
  cases s with
  | nil => simp [keys]
  | cons p rest =>
      intro hc
      exact h (by rw [keys_cons]; exact List.mem_cons_of_mem _ hc)

theorem mem_keys_of_mapGet {s : Store} {k : String} {v : JobRecord}
    (h : mapGet s k = some v) : k ∈ keys s := by
  unfold mapGet at h
  cases hf : s.find? (fun p => p.1 == k) with
  | none => rw [hf] at h; simp at h
  | some p =>
      have hp := List.find?_some hf
      have hmem := List.mem_of_find?_eq_some hf
      simp only [beq_iff_eq] at hp
      exact hp ▸ key_mem_of_entry hmem

theorem recordJob_of_mem {s : Store} {k : String} (v : JobRecord)
    (h : k ∈ keys s) (hlen : s.length ≤ MAX_HISTORY) :
    recordJob s k v = mapSet s k v := by
  have hc : ¬ (mapSet s k v).length > MAX_HISTORY := by
    rw [length_mapSet_of_mem v h]
    exact Nat.not_lt.mpr hlen
  simp only [recordJob]
  rw [if_neg hc]

theorem recordJob_of_not_mem_lt {s : Store} {k : String} (v : JobRecord)
    (h : k ∉ keys s) (hlen : s.length < MAX_HISTORY) :
    recordJob s k v = s ++ [(k, v)] := by
  have hs := mapSet_of_not_mem v h
  have hc : ¬ (mapSet s k v).length > MAX_HISTORY := by
    rw [hs, List.length_append, List.length_singleton]
    omega
  simp only [recordJob]
  rw [if_neg hc, hs]

theorem recordJob_of_not_mem_full {s : Store} {k : String} (v : JobRecord)
    (h : k ∉ keys s) (hnd : (keys s).Nodup) (hlen : s.length = MAX_HISTORY) :
    recordJob s k v = s.tail ++ [(k, v)] := by
  have hs := mapSet_of_not_mem v h
  cases s with
  | nil => simp [MAX_HISTORY] at hlen
  | cons p rest =>
      obtain ⟨k0, v0⟩ := p
      rw [keys_cons] at hnd h
      have hk0rest : k0 ∉ keys rest := (List.nodup_cons.mp hnd).1
      have hkne : k0 ≠ k := by
        intro hc
        exact h (hc ▸ List.mem_cons_self _ _)
      have hc : (mapSet ((k0, v0) :: rest) k v).length > MAX_HISTORY := by
        rw [hs, List.length_append, List.length_singleton]
        simp only [List.length_cons] at hlen ⊢
        omega
      have hnm : k0 ∉ keys (rest ++ [(k, v)]) := by
        intro hc2
        rw [keys_append] at hc2
        rcases List.mem_append.mp hc2 with h1 | h2
        · exact hk0rest h1
        · simp [keys] at h2
          exact hkne h2
      simp only [recordJob]
      rw [if_pos hc, hs, List.cons_append]
      show mapDelete ((k0, v0) :: (rest ++ [(k, v)])) k0 = _
      rw [mapDelete_cons v0 hnm]
      rfl

theorem length_recordJob_le {s : Store} {k : String} (v : JobRecord)
    (hnd : (keys s).Nodup) (hlen : s.length ≤ MAX_HISTORY) :
    (recordJob s k v).length ≤ MAX_HISTORY := by
  by_cases h : k ∈ keys s
  · rw [recordJob_of_mem v h hlen, length_mapSet_of_mem v h]
    exact hlen
  · rcases Nat.lt_or_ge s.length MAX_HISTORY with hlt | hge
    · rw [recordJob_of_not_mem_lt v h hlt, List.length_append, List.length_singleton]
      omega
    · have heq : s.length = MAX_HISTORY := Nat.le_antisymm hlen hge
      rw [recordJob_of_not_mem_full v h hnd heq, List.length_append, List.length_singleton]
      cases s with
      | nil => simp [MAX_HISTORY] at heq
      | cons p rest =>
          simp only [List.tail_cons]
          simp only [List.length_cons] at heq
          omega

theorem keys_recordJob_nodup {s : Store} {k : String} (v : JobRecord)
    (hnd : (keys s).Nodup) (hlen : s.length ≤ MAX_HISTORY) :
    (keys (recordJob s k v)).Nodup := by
  by_cases h : k ∈ keys s
  · rw [recordJob_of_mem v h hlen, keys_mapSet_of_mem v h]
    exact hnd
  · rcases Nat.lt_or_ge s.length MAX_HISTORY with hlt | hge
    · rw [recordJob_of_not_mem_lt v h hlt, keys_append]
      simp only [keys, List.map_cons, List.map_nil]
      exact List.Nodup.append hnd (List.nodup_singleton k)
        (by
          intro a ha hb
          simp only [List.mem_singleton] at hb
          exact h (hb ▸ ha))
    · have heq : s.length = MAX_HISTORY := Nat.le_antisymm hlen hge
      rw [recordJob_of_not_mem_full v h hnd heq, keys_append]
      simp only [keys, List.map_cons, List.map_nil]
      have hndt : (keys s.tail).Nodup := by
        cases s with
        | nil => simp [keys]
        | cons p rest =>
            rw [keys_cons] at hnd
            exact (List.nodup_cons.mp hnd).2
      exact List.Nodup.append hndt (List.nodup_singleton k)
        (by
          intro a ha hb
          simp only [List.mem_singleton] at hb
          exact not_mem_keys_tail h (hb ▸ ha))

theorem mapGet_recordJob_self {s : Store} {k : String} (v : JobRecord)
    (hnd : (keys s).Nodup) (hlen : s.length ≤ MAX_HISTORY) :
    mapGet (recordJob s k v) k = some v := by
  by_cases h : k ∈ keys s
  · rw [recordJob_of_mem v h hlen]
    exact mapGet_mapSet_self v h
  · rcases Nat.lt_or_ge s.length MAX_HISTORY with hlt | hge
    · rw [recordJob_of_not_mem_lt v h hlt]
      exact mapGet_append_last v h
    · have heq : s.length = MAX_HISTORY := Nat.le_antisymm hlen hge
      rw [recordJob_of_not_mem_full v h hnd heq]
      exact mapGet_append_last v (not_mem_keys_tail h)

/-! Process lemmas shared by the lifecycle claims. -/

theorem process_fst (s : Store) (job : Job) (jobId : String) (t0 t1 : Int) (env : Env) :
    (process s job jobId t0 t1 env).1 =
      writeTerminal (recordJob s jobId (processingRecord jobId job.type job.payload t0))
        jobId job.type t0 t1 (runHandler job.type job.payload jobId env) := by
  simp only [process]
  cases runHandler job.type job.payload jobId env <;> rfl

theorem terminal_after_processing (s : Store) (jobId ty : String) (payload : JVal)
    (t0 t1 : Int) (outcome : Except String JVal)
    (hnd : (keys s).Nodup) (hlen : s.length ≤ MAX_HISTORY) :
    getStatus (writeTerminal (recordJob s jobId (processingRecord jobId ty payload t0))
        jobId ty t0 t1 outcome) jobId =
      .ok (terminalRecord (recordJob s jobId (processingRecord jobId ty payload t0))
        jobId ty t0 t1 outcome)
    ∧ (terminalRecord (recordJob s jobId (processingRecord jobId ty payload t0))
        jobId ty t0 t1 outcome).startedAt = some t0 := by
  have hget1 : mapGet (recordJob s jobId (processingRecord jobId ty payload t0)) jobId =
      some (processingRecord jobId ty payload t0) :=
    mapGet_recordJob_self _ hnd hlen
  have hnd1 : (keys (recordJob s jobId (processingRecord jobId ty payload t0))).Nodup :=
    keys_recordJob_nodup _ hnd hlen
  have hlen1 : (recordJob s jobId (processingRecord jobId ty payload t0)).length ≤ MAX_HISTORY :=
    length_recordJob_le _ hnd hlen
  constructor
  · unfold writeTerminal getStatus
    rw [mapGet_recordJob_self _ hnd1 hlen1]
  · cases outcome <;> simp only [terminalRecord] <;> rw [hget1] <;> rfl

theorem process_error_characterization (s : Store) (job : Job) (jobId : String)
    (t0 t1 : Int) (env : Env) (e : String)
    (hrun : runHandler job.type job.payload jobId env = .error e)
    (hnd : (keys s).Nodup) (hlen : s.length ≤ MAX_HISTORY) :
    (process s job jobId t0 t1 env).2 = .error e
    ∧ ∃ r, getStatus (process s job jobId t0 t1 env).1 jobId = .ok r
        ∧ r.status = "failed" ∧ r.error = some e ∧ r.failedAt = some t1
        ∧ r.duration = some (t1 - t0) ∧ r.startedAt = some t0
        ∧ r.completedAt = none ∧ r.result = none := by
  have hsnd : (process s job jobId t0 t1 env).2 = .error e := by
    simp only [process, hrun]
  obtain ⟨hgs, hst⟩ := terminal_after_processing s jobId job.type job.payload t0 t1
      (.error e) hnd hlen
  have hfst : getStatus (process s job jobId t0 t1 env).1 jobId =
      .ok (terminalRecord (recordJob s jobId (processingRecord jobId job.type job.payload t0))
        jobId job.type t0 t1 (.error e)) := by
    rw [process_fst, hrun]
    exact hgs
  exact ⟨hsnd, _, hfst, rfl, rfl, rfl, rfl, hst, rfl, rfl⟩

theorem process_ok_characterization (s : Store) (job : Job) (jobId : String)
    (t0 t1 : Int) (env : Env) (v : JVal)
    (hrun : runHandler job.type job.payload jobId env = .ok v)
    (hnd : (keys s).Nodup) (hlen : s.length ≤ MAX_HISTORY) :
    (process s job jobId t0 t1 env).2 =
      .ok { jobId := jobId, status := "completed", duration := t1 - t0, result := v }
    ∧ ∃ r, getStatus (process s job jobId t0 t1 env).1 jobId = .ok r
        ∧ r.status = "completed" ∧ r.result = some v ∧ r.completedAt = some t1
        ∧ r.duration = some (t1 - t0) ∧ r.startedAt = some t0
        ∧ r.failedAt = none ∧ r.error = none := by
  have hsnd : (process s job jobId t0 t1 env).2 =
      .ok { jobId := jobId, status := "completed", duration := t1 - t0, result := v } := by
    simp only [process, hrun]
  obtain ⟨hgs, hst⟩ := terminal_after_processing s jobId job.type job.payload t0 t1
      (.ok v) hnd hlen
  have hfst : getStatus (process s job jobId t0 t1 env).1 jobId =
      .ok (terminalRecord (recordJob s jobId (processingRecord jobId job.type job.payload t0))
        jobId job.type t0 t1 (.ok v)) := by
    rw [process_fst, hrun]
    exact hgs
  exact ⟨hsnd, _, hfst, rfl, rfl, rfl, rfl, hst, rfl, rfl⟩

/-- C1: for every job whose type has no entry in the handler table,
process raises an error whose message names the unknown type, and the
record stored under the generated id has status failed with failedAt and
the elapsed-duration field set; the processing record written in step 2 is
transitioned to failed through the same recordJob path, so the stored
record keeps startedAt = t0. -/
theorem process_unknown_type (s : Store) (job : Job) (jobId : String)
    (t0 t1 : Int) (env : Env)
    (hh : handlers job.type = none)
    (hnd : (keys s).Nodup) (hlen : s.length ≤ MAX_HISTORY) :
    (process s job jobId t0 t1 env).2 = .error ("Unknown job type: " ++ job.type)
    ∧ ∃ r, getStatus (process s job jobId t0 t1 env).1 jobId = .ok r
        ∧ r.status = "failed" ∧ r.error = some ("Unknown job type: " ++ job.type)
        ∧ r.failedAt = some t1 ∧ r.duration = some (t1 - t0)
        ∧ r.startedAt = some t0 := by
  have hrun : runHandler job.type job.payload jobId env =
      .error ("Unknown job type: " ++ job.type) := by
    unfold runHandler
    rw [hh]
  obtain ⟨h1, r, h2, h3, h4, h5, h6, h7, _, _⟩ :=
    process_error_characterization s job jobId t0 t1 env _ hrun hnd hlen
  exact ⟨h1, r, h2, h3, h4, h5, h6, h7⟩

/-- C4: for every job whose handler raises, process writes the failed
record (status failed, failedAt set, error equal to the raised message) to
the history and re-raises the same failure; a subsequent getStatus on the
final store returns that failed record. -/
theorem process_handler_failure (s : Store) (job : Job) (jobId : String)
    (t0 t1 : Int) (env : Env) (h : Handler) (e : String)
    (hh : handlers job.type = some h)
    (hfail : (h job.payload jobId env).1 = .error e)
    (hnd : (keys s).Nodup) (hlen : s.length ≤ MAX_HISTORY) :
    (process s job jobId t0 t1 env).2 = .error e
    ∧ ∃ r, getStatus (process s job jobId t0 t1 env).1 jobId = .ok r
        ∧ r.status = "failed" ∧ r.error = some e ∧ r.failedAt = some t1 := by
  have hrun : runHandler job.type job.payload jobId env = .error e := by
    unfold runHandler
    rw [hh]
    exact hfail
  obtain ⟨h1, r, h2, h3, h4, h5, _, _, _, _⟩ :=
    process_error_characterization s job jobId t0 t1 env e hrun hnd hlen
  exact ⟨h1, r, h2, h3, h4, h5⟩

/-- C5: for every job whose handler returns successfully, getStatus on the
store after process returns a record with status completed, a non-null
completedAt, a nonnegative duration (under a monotone wall clock), and
result equal to the handler's return value. -/
theorem process_success_getStatus (s : Store) (job : Job) (jobId : String)
    (t0 t1 : Int) (env : Env) (h : Handler) (v : JVal)
    (hh : handlers job.type = some h)
    (hok : (h job.payload jobId env).1 = .ok v)
    (ht : t0 ≤ t1)
    (hnd : (keys s).Nodup) (hlen : s.length ≤ MAX_HISTORY) :
    ∃ r, getStatus (process s job jobId t0 t1 env).1 jobId = .ok r
      ∧ r.status = "completed" ∧ r.completedAt = some t1
      ∧ r.duration = some (t1 - t0) ∧ 0 ≤ t1 - t0 ∧ r.result = some v := by
  have hrun : runHandler job.type job.payload jobId env = .ok v := by
    unfold runHandler
    rw [hh]
    exact hok
  obtain ⟨_, r, h2, h3, h4, h5, h6, _, _, _⟩ :=
    process_ok_characterization s job jobId t0 t1 env v hrun hnd hlen
  exact ⟨r, h2, h3, h5, h6, Int.sub_nonneg.mpr ht, h4⟩

/-- C6: on handler success, process returns the object with the generated
id, status completed, the elapsed duration, and the handler result. -/
theorem process_success_return (s : Store) (job : Job) (jobId : String)
    (t0 t1 : Int) (env : Env) (h : Handler) (v : JVal)
    (hh : handlers job.type = some h)
    (hok : (h job.payload jobId env).1 = .ok v) :
    (process s job jobId t0 t1 env).2 =
      .ok { jobId := jobId, status := "completed", duration := t1 - t0, result := v } := by
  have hrun : runHandler job.type job.payload jobId env = .ok v := by
    unfold runHandler
    rw [hh]
    exact hok
  simp only [process, hrun]

/-- C2: starting from a store within capacity, after any recordJob the
store holds at most MAX_HISTORY records; an overwrite of an existing key
is just the in-place set, keeps the size, and evicts nothing; a put with a
new key below capacity appends without eviction; a put with a new key at
capacity evicts exactly one entry, namely the least-recently-inserted one
(the head), keeping the size at capacity. -/
theorem recordJob_capacity (s : Store) (k : String) (v : JobRecord)
    (hnd : (keys s).Nodup) (hlen : s.length ≤ MAX_HISTORY) :
    (recordJob s k v).length ≤ MAX_HISTORY
    ∧ (k ∈ keys s → recordJob s k v = mapSet s k v
        ∧ (recordJob s k v).length = s.length)
    ∧ (k ∉ keys s → s.length < MAX_HISTORY → recordJob s k v = s ++ [(k, v)])
    ∧ (k ∉ keys s → s.length = MAX_HISTORY →
        recordJob s k v = s.tail ++ [(k, v)]
        ∧ (recordJob s k v).length = s.length) := by
  refine ⟨length_recordJob_le v hnd hlen, ?_, ?_, ?_⟩
  · intro hmem
    refine ⟨recordJob_of_mem v hmem hlen, ?_⟩
    rw [recordJob_of_mem v hmem hlen, length_mapSet_of_mem v hmem]
  · intro hnm hlt
    exact recordJob_of_not_mem_lt v hnm hlt
  · intro hnm heq
    refine ⟨recordJob_of_not_mem_full v hnm hnd heq, ?_⟩
    rw [recordJob_of_not_mem_full v hnm hnd heq, List.length_append,
      List.length_singleton]
    cases s with
    | nil => simp [MAX_HISTORY] at heq
    | cons p rest => simp

/-- C8: getStatus on an id with no entry in the history (never inserted or
already evicted) signals the Job-not-found error, not a value and not a
different error. -/
theorem getStatus_not_found (s : Store) (jobId : String)
    (h : jobId ∉ keys s) :
    getStatus s jobId = .error "Job not found" := by
  unfold getStatus
  rw [mapGet_of_not_mem h]

/-- C9: the terminal record written by process copies startedAt by reading
the current store entry for the job id; on a store where that entry was
evicted before the terminal write, the record is stored with startedAt
undefined, and the write counts as a new insertion: below capacity it
appends, at capacity it evicts the oldest entry. -/
theorem terminal_write_after_eviction (s : Store) (jobId ty : String)
    (t0 t1 : Int) (outcome : Except String JVal)
    (h : jobId ∉ keys s) (hnd : (keys s).Nodup) :
    (terminalRecord s jobId ty t0 t1 outcome).startedAt = none
    ∧ (s.length < MAX_HISTORY →
        writeTerminal s jobId ty t0 t1 outcome =
          s ++ [(jobId, terminalRecord s jobId ty t0 t1 outcome)])
    ∧ (s.length = MAX_HISTORY →
        writeTerminal s jobId ty t0 t1 outcome =
          s.tail ++ [(jobId, terminalRecord s jobId ty t0 t1 outcome)]) := by
  have hst : (terminalRecord s jobId ty t0 t1 outcome).startedAt = none := by
    cases outcome <;> simp only [terminalRecord] <;> rw [mapGet_of_not_mem h] <;> rfl
  refine ⟨hst, ?_, ?_⟩
  · intro hlt
    exact recordJob_of_not_mem_lt _ h hlt
  · intro heq
    exact recordJob_of_not_mem_full _ h hnd heq

/-- C3: on a payload whose leadIds is a list, each batch handler returns
successfully (per-item failures never propagate out) with processed equal
to the number of input items and one result entry per item in order; an
item whose downstream call fails contributes the failed entry carrying the
error message. -/
theorem batch_handlers_processed (payload : JVal) (jobId : String) (env : Env)
    (xs : List JVal)
    (hleads : payload.getField "leadIds" = some (.arr xs)) :
    (handleEnrichmentBatch payload jobId env).1 =
      .ok (.obj [("processed", .num xs.length),
                 ("results", .arr (xs.map (enrichItemResult payload env)))])
    ∧ (∀ leadId e, env.ds enrichUrl (enrichBatchBody payload leadId) = .error e →
        enrichItemResult payload env leadId =
          .obj [("leadId", leadId), ("status", .str "failed"), ("error", .str e)])
    ∧ (handleScoringBatch payload jobId env).1 =
      .ok (.obj [("processed", .num xs.length),
                 ("results", .arr (xs.map (scoreItemResult payload env)))])
    ∧ (∀ leadId e, env.ds scoreUrl (scoreBatchBody payload leadId) = .error e →
        scoreItemResult payload env leadId =
          .obj [("leadId", leadId), ("status", .str "failed"), ("error", .str e)]) := by
  refine ⟨?_, ?_, ?_, ?_⟩
  · simp only [handleEnrichmentBatch, hleads, forOfTargets, List.length_map]
  · intro leadId e hds
    simp only [enrichItemResult, hds]
  · simp only [handleScoringBatch, hleads, forOfTargets, List.length_map]
  · intro leadId e hds
    simp only [scoreItemResult, hds]

/-- C10: when leadIds is absent (undefined) or null, each batch handler
returns processed 0 with an empty results list and issues no downstream
call, rather than failing. -/
theorem batch_handlers_no_leads (payload : JVal) (jobId : String) (env : Env)
    (hleads : payload.getField "leadIds" = none
      ∨ payload.getField "leadIds" = some .null) :
    handleEnrichmentBatch payload jobId env =
      (.ok (.obj [("processed", .num 0), ("results", .arr [])]), [])
    ∧ handleScoringBatch payload jobId env =
      (.ok (.obj [("processed", .num 0), ("results", .arr [])]), []) := by
  rcases hleads with h | h <;>
    exact ⟨by simp [handleEnrichmentBatch, h, forOfTargets],
           by simp [handleScoringBatch, h, forOfTargets]⟩

/-- C7: getRecentJobs limit returns at most limit records, all taken from
the history, ordered by startedAt descending (stated for histories in
which every record carries a startedAt, since the JS comparator is NaN on
records without one); in particular, on a history of four jobs started at
T1 < T2 < T3 < T4, getRecentJobs 3 returns them in order [T4, T3, T2]. -/
theorem getRecentJobs_spec :
    (∀ (s : Store) (limit : Nat), (∀ r ∈ s.map Prod.snd, r.startedAt.isSome) →
      (getRecentJobs s limit).length ≤ limit
      ∧ (∀ r ∈ getRecentJobs s limit, r ∈ s.map Prod.snd)
      ∧ List.Pairwise startedAtGE (getRecentJobs s limit))
    ∧ (∀ t1 t2 t3 t4 : Int, t1 < t2 → t2 < t3 → t3 < t4 →
        getRecentJobs [("j1", tRec "j1" t1), ("j2", tRec "j2" t2),
                       ("j3", tRec "j3" t3), ("j4", tRec "j4" t4)] 3
          = [tRec "j4" t4, tRec "j3" t3, tRec "j2" t2]) := by
  constructor
  · intro s limit _hall
    refine ⟨List.length_take_le _ _, ?_, ?_⟩
    · intro r hr
      have := List.take_subset limit _ hr
      exact (List.mem_insertionSort startedAtGE).mp this
    · exact (List.sorted_insertionSort startedAtGE _).sublist
        (List.take_sublist _ _)
  · intro t1 t2 t3 t4 h12 h23 h34
    have h13 : t1 < t3 := lt_trans h12 h23
    have h24 : t2 < t4 := lt_trans h23 h34
    have h14 : t1 < t4 := lt_trans h12 h24
    have n43 : ¬ startedAtGE (tRec "j3" t3) (tRec "j4" t4) := by
      simp only [startedAtGE, tRec, dateNum]
      omega
    have n42 : ¬ startedAtGE (tRec "j2" t2) (tRec "j4" t4) := by
      simp only [startedAtGE, tRec, dateNum]
      omega
    have n41 : ¬ startedAtGE (tRec "j1" t1) (tRec "j4" t4) := by
      simp only [startedAtGE, tRec, dateNum]
      omega
    have n32 : ¬ startedAtGE (tRec "j2" t2) (tRec "j3" t3) := by
      simp only [startedAtGE, tRec, dateNum]
      omega
    have n31 : ¬ startedAtGE (tRec "j1" t1) (tRec "j3" t3) := by
      simp only [startedAtGE, tRec, dateNum]
      omega
    have n21 : ¬ startedAtGE (tRec "j1" t1) (tRec "j2" t2) := by
      simp only [startedAtGE, tRec, dateNum]
      omega
    simp only [getRecentJobs, List.map_cons, List.map_nil, List.insertionSort,
      List.orderedInsert, List.orderedInsert_nil, if_neg n43, if_neg n42,
      if_neg n41, if_neg n32, if_neg n31, if_neg n21, List.take]

/-- Witness for C1: an unregistered type on the empty store. -/
theorem process_unknown_type_witness :
    (process [] jobUnknownW "j1" 5 7 envOkW).2 =
      .error ("Unknown job type: " ++ "no.such")
    ∧ ∃ r, getStatus (process [] jobUnknownW "j1" 5 7 envOkW).1 "j1" = .ok r
        ∧ r.status = "failed" ∧ r.error = some ("Unknown job type: " ++ "no.such")
        ∧ r.failedAt = some 7 ∧ r.duration = some (7 - 5)
        ∧ r.startedAt = some 5 :=
  process_unknown_type [] jobUnknownW "j1" 5 7 envOkW rfl (by decide) (by decide)

/-- Witness for C4: enrichment.single against a failing downstream. -/
theorem process_handler_failure_witness :
    (process [] jobSingleW "j1" 5 7 envFailW).2 = .error "boom"
    ∧ ∃ r, getStatus (process [] jobSingleW "j1" 5 7 envFailW).1 "j1" = .ok r
        ∧ r.status = "failed" ∧ r.error = some "boom" ∧ r.failedAt = some 7 :=
  process_handler_failure [] jobSingleW "j1" 5 7 envFailW handleEnrichmentSingle
    "boom" rfl rfl (by decide) (by decide)

/-- Witness for C5: cleanup.stale succeeds and is recorded completed. -/
theorem process_success_getStatus_witness :
    ∃ r, getStatus (process [] jobCleanW "j1" 5 7 envOkW).1 "j1" = .ok r
      ∧ r.status = "completed" ∧ r.completedAt = some 7
      ∧ r.duration = some (7 - 5) ∧ (0 : Int) ≤ 7 - 5
      ∧ r.result = some (.obj [("cleanedAt", .num 0), ("recordsRemoved", .num 0),
          ("storageReclaimed", .str "0MB")]) :=
  process_success_getStatus [] jobCleanW "j1" 5 7 envOkW handleStaleCleanup
    (.obj [("cleanedAt", .num 0), ("recordsRemoved", .num 0),
           ("storageReclaimed", .str "0MB")])
    rfl rfl (by decide) (by decide) (by decide)

/-- Witness for C6: the returned object of a successful cleanup.stale. -/
theorem process_success_return_witness :
    (process [] jobCleanW "j1" 5 7 envOkW).2 =
      .ok { jobId := "j1", status := "completed", duration := 7 - 5,
            result := .obj [("cleanedAt", .num 0), ("recordsRemoved", .num 0),
                            ("storageReclaimed", .str "0MB")] } :=
  process_success_return [] jobCleanW "j1" 5 7 envOkW handleStaleCleanup
    (.obj [("cleanedAt", .num 0), ("recordsRemoved", .num 0),
           ("storageReclaimed", .str "0MB")])
    rfl rfl

/-- Witness for C2: a put with a new key on a one-entry store stays within
capacity and appends without eviction. -/
theorem recordJob_capacity_witness :
    (recordJob [("a", tRec "a" 1)] "b" (tRec "b" 2)).length ≤ MAX_HISTORY
    ∧ recordJob [("a", tRec "a" 1)] "b" (tRec "b" 2) =
        [("a", tRec "a" 1)] ++ [("b", tRec "b" 2)] :=
  ⟨(recordJob_capacity [("a", tRec "a" 1)] "b" (tRec "b" 2)
      (by decide) (by decide)).1,
   (recordJob_capacity [("a", tRec "a" 1)] "b" (tRec "b" 2)
      (by decide) (by decide)).2.2.1 (by decide) (by decide)⟩

/-- Witness for C3: a two-item batch against an always-failing downstream. -/
theorem batch_handlers_processed_witness :
    (handleEnrichmentBatch payloadBatchW "j1" envFailW).1 =
      .ok (.obj [("processed", .num ([JVal.str "L1", JVal.str "L2"].length)),
                 ("results", .arr ([JVal.str "L1", JVal.str "L2"].map
                    (enrichItemResult payloadBatchW envFailW)))])
    ∧ enrichItemResult payloadBatchW envFailW (.str "L2") =
        .obj [("leadId", .str "L2"), ("status", .str "failed"),
              ("error", .str "boom")] :=
  ⟨(batch_handlers_processed payloadBatchW "j1" envFailW
      [.str "L1", .str "L2"] rfl).1,
   (batch_handlers_processed payloadBatchW "j1" envFailW
      [.str "L1", .str "L2"] rfl).2.1 (.str "L2") "boom" rfl⟩

/-- Witness for C7: bounded length on a one-entry history, and the
concrete T1 < T2 < T3 < T4 example at instants 1, 2, 3, 4. -/
theorem getRecentJobs_spec_witness :
    (getRecentJobs [("j1", tRec "j1" 1)] 3).length ≤ 3
    ∧ getRecentJobs [("j1", tRec "j1" 1), ("j2", tRec "j2" 2),
                     ("j3", tRec "j3" 3), ("j4", tRec "j4" 4)] 3
        = [tRec "j4" 4, tRec "j3" 3, tRec "j2" 2] :=
  ⟨(getRecentJobs_spec.1 [("j1", tRec "j1" 1)] 3 (by decide)).1,
   getRecentJobs_spec.2 1 2 3 4 (by decide) (by decide) (by decide)⟩

/-- Witness for C8: lookup of an id on the empty history. -/
theorem getStatus_not_found_witness :
    getStatus [] "nope" = .error "Job not found" :=
  getStatus_not_found [] "nope" (by decide)

/-- Witness for C9: terminal write for an id evicted from a one-entry
store below capacity. -/
theorem terminal_write_after_eviction_witness :
    (terminalRecord [("a", tRec "a" 1)] "b" "cleanup.stale" 5 7
        (.error "boom")).startedAt = none
    ∧ writeTerminal [("a", tRec "a" 1)] "b" "cleanup.stale" 5 7 (.error "boom") =
        [("a", tRec "a" 1)] ++ [("b", terminalRecord [("a", tRec "a" 1)] "b"
          "cleanup.stale" 5 7 (.error "boom"))] :=
  ⟨(terminal_write_after_eviction [("a", tRec "a" 1)] "b" "cleanup.stale" 5 7
      (.error "boom") (by decide) (by decide)).1,
   (terminal_write_after_eviction [("a", tRec "a" 1)] "b" "cleanup.stale" 5 7
      (.error "boom") (by decide) (by decide)).2.1 (by decide)⟩

/-- Witness for C10: a payload without leadIds. -/
theorem batch_handlers_no_leads_witness :
    handleEnrichmentBatch (.obj [("tenantId", .str "T1")]) "j1" envFailW =
      (.ok (.obj [("processed", .num 0), ("results", .arr [])]), [])
    ∧ handleScoringBatch (.obj [("tenantId", .str "T1")]) "j1" envFailW =
      (.ok (.obj [("processed", .num 0), ("results", .arr [])]), []) :=
  batch_handlers_no_leads (.obj [("tenantId", .str "T1")]) "j1" envFailW (Or.inl rfl)
